import Mathlib

/-!
Verification of the speech-token decoder loop of the repository
(`speaker_server.py`, `debug_python_tokens.py`) and the stdin/stdout
server loop (`speaker_pipe.py`), as a shallow embedding in Lean 4.

Modelling choices:
* Python floats become rationals `ℚ`; token ids become `Nat`; the
  (possibly negative) `top_k` parameter becomes `Int`.
* The transformer forward pass (`self.tfmr`, `self.speech_head`,
  `self.prepare_input_embeds`), the attention cache
  (`past_key_values`) and the stochastic `torch.multinomial` draw are
  third-party capabilities; they are modelled as an opaque state type
  `σ`, an opaque logits type `L` and explicit function parameters.
  Python exceptions raised by these capabilities are modelled with
  `Except String`.
* The HuggingFace logits processors (`TemperatureLogitsWarper` etc.)
  are third-party library code; the repository's own contribution is
  only WHICH processors are constructed and in WHICH order
  (`speaker_server.py` lines 42-50), so a processor is embedded as a
  tagged constructor carrying its parameter, and the numeric semantics
  of each processor is an abstract parameter `interp`.
  `LogitsProcessorList.__call__` applies its members left to right,
  embedded as a left fold.
-/

/-- The two fields of `self.hp` that the decoder loop reads
(`speaker_server.py` lines 52 and 66, `debug_python_tokens.py`
lines 20 and 45). -/
structure T3Hp where
  start_speech_token : Nat
  stop_speech_token : Nat
deriving DecidableEq

/-- The sampling parameters of `t3_inference_turbo_optimized`
(`speaker_server.py` line 36). -/
structure SamplingConfig where
  temperature : ℚ
  top_k : Int
  top_p : ℚ
  repetition_penalty : ℚ
  max_gen_len : Nat
deriving DecidableEq

/-- A logits processor as constructed by `speaker_server.py`
lines 42-50: the tag records which HuggingFace class was instantiated
and with which parameter. -/
inductive LogitsProcessor where
  | temperatureWarper (t : ℚ)
  | topKWarper (k : Int)
  | topPWarper (p : ℚ)
  | repetitionPenaltyProcessor (r : ℚ)
deriving DecidableEq

/-- `speaker_server.py` lines 42-50: the `LogitsProcessorList` is
built by appending, in program order,
`TemperatureLogitsWarper` when `temperature > 0 and temperature != 1.0`,
`TopKLogitsWarper` when `top_k > 0`,
`TopPLogitsWarper` when `top_p < 1.0`, and
`RepetitionPenaltyLogitsProcessor` when `repetition_penalty != 1.0`. -/
def buildLogitsProcessors (temperature : ℚ) (top_k : Int) (top_p : ℚ)
    (repetition_penalty : ℚ) : List LogitsProcessor :=
  let l : List LogitsProcessor := []
  let l := if temperature > 0 ∧ temperature ≠ 1 then
    l ++ [LogitsProcessor.temperatureWarper temperature] else l
  let l := if top_k > 0 then l ++ [LogitsProcessor.topKWarper top_k] else l
  let l := if top_p < 1 then l ++ [LogitsProcessor.topPWarper top_p] else l
  if repetition_penalty ≠ 1 then
    l ++ [LogitsProcessor.repetitionPenaltyProcessor repetition_penalty] else l

/-- `LogitsProcessorList.__call__(input_ids, scores)`: each member
processor is applied to the scores in list order, every call receiving
the same `input_ids`.  The numeric behaviour of an individual
processor is the abstract parameter `interp`. -/
def applyProcessors {L : Type} (interp : LogitsProcessor → List Nat → L → L)
    (procs : List LogitsProcessor) (input_ids : List Nat) (scores : L) : L :=
  procs.foldl (fun s p => interp p input_ids s) scores

/-- The external capabilities used by `t3_inference_turbo_optimized`:
`prefill` is the initial `prepare_input_embeds` + `tfmr` + `speech_head`
call (lines 53-58), `forward` is the cached `speech_emb` + `tfmr` +
`speech_head` step (lines 70-72), `multinomial` is
`torch.multinomial(F.softmax(processed), 1).item()` (lines 61/77-79).
Each may raise, modelled with `Except String`. -/
structure TurboOracle (σ L : Type) where
  prefill : Except String (σ × L)
  forward : σ → Nat → Except String (σ × L)
  multinomial : L → Except String Nat

/-- The `for i in range(max_gen_len)` loop of
`t3_inference_turbo_optimized` (`speaker_server.py` lines 68-87),
by structural recursion on the remaining iteration count:
forward the transformer on the current token, process the logits
against `input_ids = torch.cat(generated_speech_tokens)`, draw a
token; on `token_val == STOP_TOKEN` break without appending, else
append and continue; on exhaustion return what was accumulated. -/
def turboLoop {σ L : Type} (hp : T3Hp)
    (interp : LogitsProcessor → List Nat → L → L)
    (procs : List LogitsProcessor) (O : TurboOracle σ L) :
    σ → Nat → List Nat → Nat → Except String (List Nat)
  | _, _, generated, 0 => Except.ok generated
  | pkv, current, generated, n + 1 =>
    match O.forward pkv current with
    | Except.error e => Except.error e
    | Except.ok fw =>
      match O.multinomial (applyProcessors interp procs generated fw.2) with
      | Except.error e => Except.error e
      | Except.ok next =>
        if next = hp.stop_speech_token then
          Except.ok generated
        else
          turboLoop hp interp procs O fw.1 next (generated ++ [next]) n

/-- `t3_inference_turbo_optimized` (`speaker_server.py` lines 36-91):
build the processor list from the configuration, prefill, process the
first logit vector against `input_ids = [start_speech_token]`, draw
the first token and append it (line 62: unconditionally, with no stop
check), then run the bounded loop and return the accumulated tokens. -/
def t3_inference_turbo_optimized {σ L : Type} (hp : T3Hp)
    (cfg : SamplingConfig)
    (interp : LogitsProcessor → List Nat → L → L)
    (O : TurboOracle σ L) : Except String (List Nat) :=
  let logits_processors := buildLogitsProcessors cfg.temperature cfg.top_k
    cfg.top_p cfg.repetition_penalty
  match O.prefill with
  | Except.error e => Except.error e
  | Except.ok pf =>
    match O.multinomial (applyProcessors interp logits_processors
        [hp.start_speech_token] pf.2) with
    | Except.error e => Except.error e
    | Except.ok next =>
      turboLoop hp interp logits_processors O pf.1 next [next] cfg.max_gen_len

/-- `torch.argmax` over a concrete logit vector: the index of the
first maximal element (accumulator: next index, best index so far,
best value so far). -/
def argmaxAux : List ℚ → Nat → Nat → ℚ → Nat
  | [], _, bi, _ => bi
  | x :: xs, i, bi, bv =>
    if x > bv then argmaxAux xs (i + 1) i x else argmaxAux xs (i + 1) bi bv

/-- `torch.argmax(processed_logits, dim=-1)` on a logit vector
represented as a list of rationals. -/
def argmax : List ℚ → Nat
  | [] => 0
  | x :: xs => argmaxAux xs 1 0 x

/-- The external capabilities of the diagnostic arg-max loop of
`debug_python_tokens.py`: `prefill` is the initial
`prepare_input_embeds` + `tfmr` + `speech_head` call (lines 35-38),
`forward` is the cached step (lines 51-54).  The logit vector is
concrete (a list of rationals) because this variant takes its arg-max.
This script has no error handling at all, so the capabilities are
total functions. -/
structure DebugOracle (σ : Type) where
  prefill : σ × List ℚ
  forward : σ → Nat → σ × List ℚ

/-- `debug_python_tokens.py` lines 24-25: the diagnostic script builds
its `LogitsProcessorList` with a single
`RepetitionPenaltyLogitsProcessor(1.2)`. -/
def debugProcessors : List LogitsProcessor :=
  [LogitsProcessor.repetitionPenaltyProcessor (6 / 5)]

/-- The `for i in range(20)` loop of `debug_python_tokens.py`
(lines 40-54): process the logits against
`input_ids = torch.cat(speech_tokens)`, take the arg-max; on the stop
token break, else append the token, forward the transformer and
continue with the new logits. -/
def debugLoopAux {σ : Type} (interp : LogitsProcessor → List Nat → List ℚ → List ℚ)
    (procs : List LogitsProcessor) (hp : T3Hp) (O : DebugOracle σ) :
    σ → List ℚ → List Nat → Nat → List Nat
  | _, _, speechToks, 0 => speechToks
  | pkv, logits, speechToks, n + 1 =>
    let processed := applyProcessors interp procs speechToks logits
    let next := argmax processed
    if next = hp.stop_speech_token then speechToks
    else
      let fw := O.forward pkv next
      debugLoopAux interp procs hp O fw.1 fw.2 (speechToks ++ [next]) n

/-- The manual T3 loop of `debug_python_tokens.py` (lines 27-54):
`speech_tokens` is seeded with the start token (line 27), the prefill
produces the cache and first logits (lines 35-38), then the bounded
arg-max loop runs for up to 20 steps.  The accumulated token list
(which, in this diagnostic variant, begins with the start token) is
the output. -/
def debugTokenLoop {σ : Type} (interp : LogitsProcessor → List Nat → List ℚ → List ℚ)
    (procs : List LogitsProcessor) (hp : T3Hp) (O : DebugOracle σ) : List Nat :=
  let pf := O.prefill
  debugLoopAux interp procs hp O pf.1 pf.2 [hp.start_speech_token] 20

/-- `speaker_pipe.py` lines 17-36, the `speak` function: the body runs
under a `try`; on success exactly the line `AUDIO:<base64>` is
printed, and if any step raises, exactly the line `ERROR:<message>`
is printed.  Generation, WAV encoding and base64 encoding are
third-party calls, absorbed into the capability `gen`, which returns
the base64 payload or the exception message. -/
def speak (gen : String → Except String String) (text : String) : String :=
  match gen text with
  | Except.ok audio_b64 => "AUDIO:" ++ audio_b64
  | Except.error e => "ERROR:" ++ e

/-- Python's `str.strip()` (no argument): remove leading and trailing
whitespace.  Embedded directly on the character list so that it is
executable by kernel reduction. -/
def pyStrip (s : String) : String :=
  String.mk
    (((s.data.dropWhile Char.isWhitespace).reverse.dropWhile
      Char.isWhitespace).reverse)

/-- The `__main__` loop of `speaker_pipe.py` (lines 43-49), mapped
over the list of stdin lines, returning the list of response lines
(the initial `READY` signal of line 40 is printed before this loop
and is not part of the per-line responses): each line is stripped;
an empty result is skipped with no response; `EXIT` breaks out of the
loop with no response; any other line produces exactly the one
response line of `speak`. -/
def pipeMainLoop (gen : String → Except String String) : List String → List String
  | [] => []
  | line :: rest =>
    let text := pyStrip line
    if text = "" then pipeMainLoop gen rest
    else if text = "EXIT" then []
    else speak gen text :: pipeMainLoop gen rest

/-- Modelled from the spec: the specification asserts that the logit
filtering pipeline is applied in the fixed order (a) repetition
penalty, (b) temperature scaling, (c) top-k truncation, (d) top-p
truncation.  This definition builds the processor list in that claimed
order, with the same enable/skip conditions as the code, for
comparison against `buildLogitsProcessors`. -/
def specClaimedProcessorOrder (temperature : ℚ) (top_k : Int) (top_p : ℚ)
    (repetition_penalty : ℚ) : List LogitsProcessor :=
  let l : List LogitsProcessor := []
  let l := if repetition_penalty ≠ 1 then
    l ++ [LogitsProcessor.repetitionPenaltyProcessor repetition_penalty] else l
  let l := if temperature > 0 ∧ temperature ≠ 1 then
    l ++ [LogitsProcessor.temperatureWarper temperature] else l
  let l := if top_k > 0 then l ++ [LogitsProcessor.topKWarper top_k] else l
  if top_p < 1 then l ++ [LogitsProcessor.topPWarper top_p] else l

/-! Concrete instances used to evaluate the embedded code on explicit
inputs: a hyperparameter record with start token 1 and stop token 0,
interpretations that leave the logits untouched, and oracles whose
draws are constant or which always raise. -/

/-- Concrete hyperparameters: start token 1, stop token 0. -/
def hpTest : T3Hp := ⟨1, 0⟩

/-- Processor interpretation over an opaque one-point logits type. -/
def trivialInterp : LogitsProcessor → List Nat → Unit → Unit := fun _ _ s => s

/-- Processor interpretation over concrete logit vectors that leaves
them unchanged. -/
def trivialInterpQ : LogitsProcessor → List Nat → List ℚ → List ℚ := fun _ _ s => s

/-- A total oracle whose multinomial draw always returns `t`. -/
def constOracle (t : Nat) : TurboOracle Unit Unit :=
  ⟨Except.ok ((), ()), fun _ _ => Except.ok ((), ()), fun _ => Except.ok t⟩

/-- An oracle all of whose capabilities raise with message `e`. -/
def errOracle (e : String) : TurboOracle Unit Unit :=
  ⟨Except.error e, fun _ _ => Except.error e, fun _ => Except.error e⟩

/-- A sampling configuration in which every filter parameter takes its
neutral value, with `max_gen_len = n`. -/
def cfgNeutral (n : Nat) : SamplingConfig := ⟨1, 0, 1, 1, n⟩

/-- A malformed configuration: `temperature = 0`, the other values as
in the server's defaults, `max_gen_len = 2`. -/
def cfgZeroTemp : SamplingConfig := ⟨0, 50, 19 / 20, 6 / 5, 2⟩

/-- A concrete arg-max-variant oracle over a one-point state. -/
def unitDebugOracle : DebugOracle Unit := ⟨((), [0]), fun _ _ => ((), [0])⟩

/-- A generation capability that always succeeds with payload `abc`. -/
def genOk : String → Except String String := fun _ => Except.ok "abc"

/-- Each iteration of the decoder loop appends at most one token, so a
successful run from an accumulator `gen` with `n` remaining iterations
returns at most `gen.length + n` tokens. -/
lemma turboLoop_ok_length {σ L : Type} (hp : T3Hp)
    (interp : LogitsProcessor → List Nat → L → L)
    (procs : List LogitsProcessor) (O : TurboOracle σ L) :
    ∀ (n : Nat) (pkv : σ) (cur : Nat) (gen l : List Nat),
      turboLoop hp interp procs O pkv cur gen n = Except.ok l →
      l.length ≤ gen.length + n := by
  intro n
  induction n with
  | zero =>
    intro pkv cur gen l h
    simp only [turboLoop, Except.ok.injEq] at h
    subst h
    simp
  | succ n ih =>
    intro pkv cur gen l h
    simp only [turboLoop] at h
    cases hf : O.forward pkv cur with
    | error e => simp only [hf] at h; exact Except.noConfusion h
    | ok fw =>
      simp only [hf] at h
      cases hm : O.multinomial (applyProcessors interp procs gen fw.2) with
      | error e => simp only [hm] at h; exact Except.noConfusion h
      | ok next =>
        simp only [hm] at h
        by_cases hs : next = hp.stop_speech_token
        · simp only [if_pos hs, Except.ok.injEq] at h
          subst h
          omega
        · simp only [if_neg hs] at h
          have hrec := ih fw.1 next (gen ++ [next]) l h
          simp only [List.length_append, List.length_singleton] at hrec
          omega

/-- If every forward step succeeds and every multinomial draw succeeds
with a token different from the stop token, the decoder loop consumes
all of its remaining iterations and appends exactly one token per
iteration. -/
lemma turboLoop_nostop_length {σ L : Type} (hp : T3Hp)
    (interp : LogitsProcessor → List Nat → L → L)
    (procs : List LogitsProcessor) (O : TurboOracle σ L)
    (hf : ∀ s c, ∃ fw, O.forward s c = Except.ok fw)
    (hm : ∀ x, ∃ t, O.multinomial x = Except.ok t ∧ t ≠ hp.stop_speech_token) :
    ∀ (n : Nat) (pkv : σ) (cur : Nat) (gen : List Nat),
      ∃ l, turboLoop hp interp procs O pkv cur gen n = Except.ok l ∧
        l.length = gen.length + n := by
  intro n
  induction n with
  | zero =>
    intro pkv cur gen
    exact ⟨gen, rfl, by simp⟩
  | succ n ih =>
    intro pkv cur gen
    obtain ⟨fw, hfw⟩ := hf pkv cur
    obtain ⟨t, hmt, hts⟩ := hm (applyProcessors interp procs gen fw.2)
    obtain ⟨l, hl, hlen⟩ := ih fw.1 t (gen ++ [t])
    refine ⟨l, ?_, ?_⟩
    · simp only [turboLoop, hfw, hmt, if_neg hts]
      exact hl
    · simp only [List.length_append, List.length_singleton] at hlen
      omega

/-- The decoder depends on the configuration only through the
processor list it builds and the iteration bound. -/
lemma t3_congr_processors {σ L : Type} (hp : T3Hp)
    (interp : LogitsProcessor → List Nat → L → L) (O : TurboOracle σ L)
    (c1 c2 : SamplingConfig)
    (h : buildLogitsProcessors c1.temperature c1.top_k c1.top_p
          c1.repetition_penalty
        = buildLogitsProcessors c2.temperature c2.top_k c2.top_p
          c2.repetition_penalty)
    (hmx : c1.max_gen_len = c2.max_gen_len) :
    t3_inference_turbo_optimized hp c1 interp O
      = t3_inference_turbo_optimized hp c2 interp O := by
  simp only [t3_inference_turbo_optimized, h, hmx]

/-- The claims below are stated against the definitions above; the
first group settles the properties of the decoder loop itself. -/
lemma buildLogitsProcessors_def_check :
    buildLogitsProcessors 1 0 1 1 = [] := by
  simp [buildLogitsProcessors]

/-- C1: the specification claims the returned token sequence never
contains `stop_speech_token`.  Evaluating the embedded
`t3_inference_turbo_optimized` with an oracle whose multinomial draw
is always the stop token (0) shows that the first draw (line 62 of
`speaker_server.py`) is appended with no stop check: the decoder
returns `[0]`, a sequence containing the stop token. -/
theorem t3_first_draw_stop_token_is_emitted :
    t3_inference_turbo_optimized hpTest (cfgNeutral 3) trivialInterp
        (constOracle 0)
      = Except.ok [hpTest.stop_speech_token]
    ∧ hpTest.stop_speech_token ∈ [hpTest.stop_speech_token] :=
  ⟨rfl, by simp⟩

/-- C5: the specification claims that when the first step
deterministically yields the stop token the decoder returns an empty
sequence.  Evaluating the embedded decoder with an oracle whose every
draw is the stop token (0) shows it instead returns the singleton
`[0]`: the first draw is appended unconditionally before the loop's
stop check can run. -/
theorem t3_stop_peaked_first_step_not_empty :
    t3_inference_turbo_optimized hpTest (cfgNeutral 4) trivialInterp
        (constOracle 0)
      = Except.ok [0]
    ∧ ([0] : List Nat) ≠ [] :=
  ⟨rfl, by simp⟩

/-- C3 counterexample: with `max_gen_len = 2` and an oracle that
always draws token 7 (never the stop token 0), the decoder returns
three tokens, violating the claimed bound `length ≤ max_gen_len`. -/
theorem t3_length_can_exceed_max_gen_len :
    t3_inference_turbo_optimized hpTest (cfgNeutral 2) trivialInterp
        (constOracle 7)
      = Except.ok [7, 7, 7]
    ∧ ¬ ([7, 7, 7] : List Nat).length ≤ (cfgNeutral 2).max_gen_len :=
  ⟨rfl, by decide⟩

/-- C3 (amended): every successful run of the decoder returns at most
`max_gen_len + 1` tokens: one token is drawn and appended before the
loop, and each of the at most `max_gen_len` loop iterations appends
at most one more. -/
theorem t3_length_le_max_gen_len_succ {σ L : Type} (hp : T3Hp)
    (cfg : SamplingConfig) (interp : LogitsProcessor → List Nat → L → L)
    (O : TurboOracle σ L) (l : List Nat)
    (h : t3_inference_turbo_optimized hp cfg interp O = Except.ok l) :
    l.length ≤ cfg.max_gen_len + 1 := by
  simp only [t3_inference_turbo_optimized] at h
  cases hpf : O.prefill with
  | error e => simp only [hpf] at h; exact Except.noConfusion h
  | ok pf =>
    simp only [hpf] at h
    cases hm : O.multinomial (applyProcessors interp
        (buildLogitsProcessors cfg.temperature cfg.top_k cfg.top_p
          cfg.repetition_penalty) [hp.start_speech_token] pf.2) with
    | error e => simp only [hm] at h; exact Except.noConfusion h
    | ok next =>
      simp only [hm] at h
      have hlen := turboLoop_ok_length hp interp
        (buildLogitsProcessors cfg.temperature cfg.top_k cfg.top_p
          cfg.repetition_penalty) O cfg.max_gen_len pf.1 next [next] l h
      simp only [List.length_singleton] at hlen
      omega

/-- Witness for C3 (amended) at a concrete input. -/
theorem t3_length_le_max_gen_len_succ_witness :
    ([7, 7, 7] : List Nat).length ≤ (cfgNeutral 2).max_gen_len + 1 :=
  t3_length_le_max_gen_len_succ hpTest (cfgNeutral 2) trivialInterp
    (constOracle 7) [7, 7, 7] rfl

/-- C6 counterexample: with `max_gen_len = 5` and an oracle that
always draws token 7 (never the stop token), the decoder returns six
tokens, not the claimed five. -/
theorem t3_max5_returns_six_tokens :
    t3_inference_turbo_optimized hpTest (cfgNeutral 5) trivialInterp
        (constOracle 7)
      = Except.ok [7, 7, 7, 7, 7, 7]
    ∧ ([7, 7, 7, 7, 7, 7] : List Nat).length ≠ 5 :=
  ⟨rfl, by decide⟩

/-- C6 (amended): with `max_gen_len = 5` and an oracle all of whose
capabilities succeed and whose draws never equal the stop token, the
decoder terminates by the length cap (a normal `Except.ok` result,
not an error) with exactly 6 = `max_gen_len + 1` tokens: the pre-loop
draw plus one per loop iteration. -/
theorem t3_nostop_max5_returns_exactly_six {σ L : Type} (hp : T3Hp)
    (cfg : SamplingConfig) (interp : LogitsProcessor → List Nat → L → L)
    (O : TurboOracle σ L)
    (hpf : ∃ pf, O.prefill = Except.ok pf)
    (hf : ∀ s c, ∃ fw, O.forward s c = Except.ok fw)
    (hm : ∀ x, ∃ t, O.multinomial x = Except.ok t ∧ t ≠ hp.stop_speech_token)
    (hmax : cfg.max_gen_len = 5) :
    ∃ l, t3_inference_turbo_optimized hp cfg interp O = Except.ok l
      ∧ l.length = 6 := by
  obtain ⟨pf, hpf2⟩ := hpf
  obtain ⟨t0, hm0, _⟩ := hm (applyProcessors interp
    (buildLogitsProcessors cfg.temperature cfg.top_k cfg.top_p
      cfg.repetition_penalty) [hp.start_speech_token] pf.2)
  obtain ⟨l, hl, hlen⟩ := turboLoop_nostop_length hp interp
    (buildLogitsProcessors cfg.temperature cfg.top_k cfg.top_p
      cfg.repetition_penalty) O hf hm cfg.max_gen_len pf.1 t0 [t0]
  refine ⟨l, ?_, ?_⟩
  · simp only [t3_inference_turbo_optimized, hpf2, hm0]
    exact hl
  · simp only [List.length_singleton] at hlen
    omega

/-- Witness for C6 (amended) at a concrete input. -/
theorem t3_nostop_max5_returns_exactly_six_witness :
    ∃ l, t3_inference_turbo_optimized hpTest (cfgNeutral 5) trivialInterp
        (constOracle 7) = Except.ok l ∧ l.length = 6 :=
  t3_nostop_max5_returns_exactly_six hpTest (cfgNeutral 5) trivialInterp
    (constOracle 7)
    ⟨((), ()), rfl⟩
    (fun _ _ => ⟨((), ()), rfl⟩)
    (fun _ => ⟨7, rfl, by decide⟩)
    rfl

/-- C4 counterexample: with the malformed configuration
`temperature = 0` the decoder is not rejected before the loop and the
oracle is invoked: with a total oracle the run succeeds and returns
tokens, and with an oracle whose prefill raises the message
`oracle invoked`, that very message comes back — so the
predict-next-logits capability was called. -/
theorem t3_zero_temperature_not_rejected :
    t3_inference_turbo_optimized hpTest cfgZeroTemp trivialInterp
        (constOracle 7)
      = Except.ok [7, 7, 7]
    ∧ t3_inference_turbo_optimized hpTest cfgZeroTemp trivialInterp
        (errOracle "oracle invoked")
      = Except.error "oracle invoked" :=
  ⟨rfl, rfl⟩

/-- C4 (amended): no configuration validation is performed.  A
non-positive temperature, a non-positive `top_k`, or a `top_p` above 1
merely leaves the corresponding warper out of the processor list —
exactly as the neutral value of that parameter would — and the
decoder then runs identically, invoking the oracle as usual. -/
theorem t3_malformed_config_disables_filters {σ L : Type} (hp : T3Hp)
    (interp : LogitsProcessor → List Nat → L → L) (O : TurboOracle σ L)
    (t : ℚ) (k : Int) (p r : ℚ) (mx : Nat) :
    (t ≤ 0 →
      buildLogitsProcessors t k p r = buildLogitsProcessors 1 k p r
      ∧ t3_inference_turbo_optimized hp ⟨t, k, p, r, mx⟩ interp O
          = t3_inference_turbo_optimized hp ⟨1, k, p, r, mx⟩ interp O)
    ∧ (k ≤ 0 →
      buildLogitsProcessors t k p r = buildLogitsProcessors t 0 p r
      ∧ t3_inference_turbo_optimized hp ⟨t, k, p, r, mx⟩ interp O
          = t3_inference_turbo_optimized hp ⟨t, 0, p, r, mx⟩ interp O)
    ∧ (1 ≤ p →
      buildLogitsProcessors t k p r = buildLogitsProcessors t k 1 r
      ∧ t3_inference_turbo_optimized hp ⟨t, k, p, r, mx⟩ interp O
          = t3_inference_turbo_optimized hp ⟨t, k, 1, r, mx⟩ interp O) := by
  refine ⟨fun ht => ?_, fun hk => ?_, fun hp1 => ?_⟩
  · have hc1 : ¬ ((t : ℚ) > 0 ∧ t ≠ 1) := by
      rintro ⟨h1, _⟩; linarith
    have hc2 : ¬ ((1 : ℚ) > 0 ∧ (1 : ℚ) ≠ 1) := by
      rintro ⟨_, h2⟩; exact h2 rfl
    have hb : buildLogitsProcessors t k p r = buildLogitsProcessors 1 k p r := by
      simp [buildLogitsProcessors, hc1, hc2]
    exact ⟨hb, t3_congr_processors hp interp O ⟨t, k, p, r, mx⟩
      ⟨1, k, p, r, mx⟩ hb rfl⟩
  · have hc1 : ¬ ((k : Int) > 0) := by omega
    have hc2 : ¬ ((0 : Int) > 0) := by omega
    have hb : buildLogitsProcessors t k p r = buildLogitsProcessors t 0 p r := by
      simp [buildLogitsProcessors, hc1, hc2]
    exact ⟨hb, t3_congr_processors hp interp O ⟨t, k, p, r, mx⟩
      ⟨t, 0, p, r, mx⟩ hb rfl⟩
  · have hc1 : ¬ ((p : ℚ) < 1) := by linarith
    have hc2 : ¬ ((1 : ℚ) < 1) := by linarith
    have hb : buildLogitsProcessors t k p r = buildLogitsProcessors t k 1 r := by
      simp [buildLogitsProcessors, hc1, hc2]
    exact ⟨hb, t3_congr_processors hp interp O ⟨t, k, p, r, mx⟩
      ⟨t, k, 1, r, mx⟩ hb rfl⟩

/-- Witness for C4 (amended) at the concrete malformed value
`temperature = 0`. -/
theorem t3_malformed_config_disables_filters_witness :
    buildLogitsProcessors 0 50 (19 / 20) (6 / 5)
      = buildLogitsProcessors 1 50 (19 / 20) (6 / 5)
    ∧ t3_inference_turbo_optimized hpTest ⟨0, 50, 19 / 20, 6 / 5, 2⟩
        trivialInterp (constOracle 7)
      = t3_inference_turbo_optimized hpTest ⟨1, 50, 19 / 20, 6 / 5, 2⟩
        trivialInterp (constOracle 7) :=
  (t3_malformed_config_disables_filters hpTest trivialInterp (constOracle 7)
    0 50 (19 / 20) (6 / 5) 2).1 (le_refl 0)

/-- C2 counterexample: at a configuration enabling all four filters
(`temperature = 1/2`, `top_k = 5`, `top_p = 9/10`,
`repetition_penalty = 6/5`), the processor list the code builds is
not the list in the order the specification claims (repetition
penalty first): the code puts the penalty last. -/
theorem buildOrder_ne_specClaimedOrder :
    buildLogitsProcessors (1 / 2) 5 (9 / 10) (6 / 5)
      ≠ specClaimedProcessorOrder (1 / 2) 5 (9 / 10) (6 / 5) := by
  simp [buildLogitsProcessors, specClaimedProcessorOrder]
  norm_num
  exact fun h => LogitsProcessor.noConfusion h

/-- C2 (amended): with every filter enabled, the processor list is
applied in the fixed order temperature scaling, then top-k, then
top-p, then repetition penalty — the repetition penalty is applied
LAST, to the already scaled and truncated logits, not first to the
raw logits as the specification claims. -/
theorem buildLogitsProcessors_order (t : ℚ) (k : Int) (p r : ℚ)
    (ht0 : 0 < t) (ht1 : t ≠ 1) (hk : 0 < k) (hp1 : p < 1) (hr : r ≠ 1) :
    buildLogitsProcessors t k p r =
      [LogitsProcessor.temperatureWarper t, LogitsProcessor.topKWarper k,
       LogitsProcessor.topPWarper p,
       LogitsProcessor.repetitionPenaltyProcessor r] := by
  simp [buildLogitsProcessors, ht0, ht1, hk, hp1, hr]

/-- Witness for C2 (amended) at a concrete all-enabled configuration. -/
theorem buildLogitsProcessors_order_witness :
    buildLogitsProcessors (1 / 2) 5 (9 / 10) (6 / 5) =
      [LogitsProcessor.temperatureWarper (1 / 2), LogitsProcessor.topKWarper 5,
       LogitsProcessor.topPWarper (9 / 10),
       LogitsProcessor.repetitionPenaltyProcessor (6 / 5)] :=
  buildLogitsProcessors_order (1 / 2) 5 (9 / 10) (6 / 5)
    (by norm_num) (by norm_num) (by norm_num) (by norm_num) (by norm_num)

/-- C7: a disabled filter is skipped entirely, not applied with a
neutral parameter: with `top_k = 0` no top-k warper is in the list,
with `top_p = 1` no top-p warper, with `repetition_penalty = 1` no
penalty processor, and with `temperature = 1` no temperature warper;
since `applyProcessors` only ever applies members of the list, the
logits pass through the absent stage unchanged. -/
theorem disabled_filters_skipped (t : ℚ) (k : Int) (p r : ℚ) :
    (k = 0 → ∀ k2, LogitsProcessor.topKWarper k2
      ∉ buildLogitsProcessors t k p r)
    ∧ (p = 1 → ∀ p2, LogitsProcessor.topPWarper p2
      ∉ buildLogitsProcessors t k p r)
    ∧ (r = 1 → ∀ r2, LogitsProcessor.repetitionPenaltyProcessor r2
      ∉ buildLogitsProcessors t k p r)
    ∧ (t = 1 → ∀ t2, LogitsProcessor.temperatureWarper t2
      ∉ buildLogitsProcessors t k p r) := by
  refine ⟨fun h k2 => ?_, fun h p2 => ?_, fun h r2 => ?_, fun h t2 => ?_⟩ <;>
    subst h <;>
    simp only [buildLogitsProcessors] <;>
    split_ifs <;> simp_all

/-- Witness for C7: each disabled filter is absent at the all-neutral
configuration. -/
theorem disabled_filters_skipped_witness :
    LogitsProcessor.topKWarper 50 ∉ buildLogitsProcessors 1 0 1 1
    ∧ LogitsProcessor.topPWarper (1 / 2) ∉ buildLogitsProcessors 1 0 1 1
    ∧ LogitsProcessor.repetitionPenaltyProcessor (6 / 5)
        ∉ buildLogitsProcessors 1 0 1 1
    ∧ LogitsProcessor.temperatureWarper (1 / 2)
        ∉ buildLogitsProcessors 1 0 1 1 :=
  ⟨(disabled_filters_skipped 1 0 1 1).1 rfl 50,
   (disabled_filters_skipped 1 0 1 1).2.1 rfl (1 / 2),
   (disabled_filters_skipped 1 0 1 1).2.2.1 rfl (6 / 5),
   (disabled_filters_skipped 1 0 1 1).2.2.2 rfl (1 / 2)⟩

/-- C8: the decoder contains no exception handling: if the prefill,
the forward step at any loop state, or the multinomial draw raises,
the decoder's result is exactly that error — propagated immediately,
not caught, retried or masked — and no partial token list is
returned alongside it. -/
theorem turbo_capability_error_propagates {σ L : Type} (hp : T3Hp)
    (cfg : SamplingConfig) (interp : LogitsProcessor → List Nat → L → L)
    (O : TurboOracle σ L) (e : String) :
    (O.prefill = Except.error e →
      t3_inference_turbo_optimized hp cfg interp O = Except.error e)
    ∧ (∀ pf, O.prefill = Except.ok pf →
      O.multinomial (applyProcessors interp
          (buildLogitsProcessors cfg.temperature cfg.top_k cfg.top_p
            cfg.repetition_penalty) [hp.start_speech_token] pf.2)
        = Except.error e →
      t3_inference_turbo_optimized hp cfg interp O = Except.error e)
    ∧ (∀ procs pkv cur gen n, O.forward pkv cur = Except.error e →
      turboLoop hp interp procs O pkv cur gen (n + 1) = Except.error e)
    ∧ (∀ procs pkv cur gen n fw, O.forward pkv cur = Except.ok fw →
      O.multinomial (applyProcessors interp procs gen fw.2)
        = Except.error e →
      turboLoop hp interp procs O pkv cur gen (n + 1) = Except.error e)
    ∧ (t3_inference_turbo_optimized hp cfg interp O = Except.error e →
      ∀ l, t3_inference_turbo_optimized hp cfg interp O ≠ Except.ok l) := by
  refine ⟨fun h => ?_, fun pf h1 h2 => ?_, fun procs pkv cur gen n h => ?_,
    fun procs pkv cur gen n fw h1 h2 => ?_, fun h l => ?_⟩
  · simp only [t3_inference_turbo_optimized, h]
  · simp only [t3_inference_turbo_optimized, h1, h2]
  · simp only [turboLoop, h]
  · simp only [turboLoop, h1, h2]
  · rw [h]
    simp

/-- Witness for C8 at a concrete always-raising oracle. -/
theorem turbo_capability_error_propagates_witness :
    t3_inference_turbo_optimized hpTest (cfgNeutral 1) trivialInterp
      (errOracle "boom") = Except.error "boom" :=
  (turbo_capability_error_propagates hpTest (cfgNeutral 1) trivialInterp
    (errOracle "boom") "boom").1 rfl

/-- C9: with the neutral configuration (`temperature = 1`,
`top_k = 0`, `top_p = 1`, `repetition_penalty = 1`) the processor
list is empty, and the arg-max diagnostic variant of the decoder loop
is deterministic: two invocations with identical oracle,
hyperparameters and configuration produce identical output token
sequences, since the arg-max path consumes no source of randomness. -/
theorem argmax_variant_deterministic {σ : Type}
    (interp : LogitsProcessor → List Nat → List ℚ → List ℚ)
    (t : ℚ) (k : Int) (p r : ℚ)
    (ht : t = 1) (hk : k = 0) (hp1 : p = 1) (hr : r = 1) :
    buildLogitsProcessors t k p r = []
    ∧ ∀ (O O2 : DebugOracle σ) (h1 h2 : T3Hp), O = O2 → h1 = h2 →
        debugTokenLoop interp (buildLogitsProcessors t k p r) h1 O
          = debugTokenLoop interp (buildLogitsProcessors t k p r) h2 O2 := by
  subst ht hk hp1 hr
  refine ⟨buildLogitsProcessors_def_check, ?_⟩
  intro O O2 h1 h2 hO hh
  subst hO
  subst hh
  rfl

/-- Witness for C9 at a concrete oracle and hyperparameters. -/
theorem argmax_variant_deterministic_witness :
    buildLogitsProcessors 1 0 1 1 = ([] : List LogitsProcessor)
    ∧ debugTokenLoop trivialInterpQ (buildLogitsProcessors 1 0 1 1) hpTest
        unitDebugOracle
      = debugTokenLoop trivialInterpQ (buildLogitsProcessors 1 0 1 1) hpTest
        unitDebugOracle :=
  ⟨(@argmax_variant_deterministic Unit trivialInterpQ 1 0 1 1 rfl rfl rfl rfl).1,
   (@argmax_variant_deterministic Unit trivialInterpQ 1 0 1 1 rfl rfl rfl rfl).2
     unitDebugOracle unitDebugOracle hpTest hpTest rfl rfl⟩

/-- C10: in the stdin/stdout server loop, a line whose stripped
content is empty is skipped with no response; a line stripping to
`EXIT` terminates the loop with no response; and every other line
produces exactly one response line, which is `AUDIO:<base64>` when
generation succeeds and `ERROR:<message>` when it raises. -/
theorem pipe_loop_line_discipline (gen : String → Except String String)
    (line : String) (rest : List String) :
    (pyStrip line = "" →
      pipeMainLoop gen (line :: rest) = pipeMainLoop gen rest)
    ∧ (pyStrip line = "EXIT" → pipeMainLoop gen (line :: rest) = [])
    ∧ (pyStrip line ≠ "" → pyStrip line ≠ "EXIT" →
      pipeMainLoop gen (line :: rest)
        = speak gen (pyStrip line) :: pipeMainLoop gen rest
      ∧ ((∃ b, gen (pyStrip line) = Except.ok b
            ∧ speak gen (pyStrip line) = "AUDIO:" ++ b)
         ∨ (∃ m, gen (pyStrip line) = Except.error m
            ∧ speak gen (pyStrip line) = "ERROR:" ++ m))) := by
  refine ⟨fun h => ?_, fun h => ?_, fun h1 h2 => ?_⟩
  · simp [pipeMainLoop, h]
  · simp [pipeMainLoop, h]
  · refine ⟨?_, ?_⟩
    · simp only [pipeMainLoop]
      rw [if_neg h1, if_neg h2]
    · cases hg : gen (pyStrip line) with
      | ok b => exact Or.inl ⟨b, rfl, by simp [speak, hg]⟩
      | error m => exact Or.inr ⟨m, rfl, by simp [speak, hg]⟩

/-- Witness for C10 at a concrete line and generation capability. -/
theorem pipe_loop_line_discipline_witness :
    pipeMainLoop genOk ["hello"]
      = speak genOk (pyStrip "hello") :: pipeMainLoop genOk []
    ∧ ((∃ b, genOk (pyStrip "hello") = Except.ok b
          ∧ speak genOk (pyStrip "hello") = "AUDIO:" ++ b)
       ∨ (∃ m, genOk (pyStrip "hello") = Except.error m
          ∧ speak genOk (pyStrip "hello") = "ERROR:" ++ m)) :=
  (pipe_loop_line_discipline genOk "hello" []).2.2 (by decide) (by decide)
